import Mathlib

/-!
Verification of the juttmy-core chat engine against its specification.

The Rust sources are shallowly embedded: pure functions become Lean
functions, database tables become lists of row structures, the in-memory
account registry becomes a record, and effectful operations are modelled
as explicit state passing with environment records supplying the outcomes
of external steps (filesystem calls, network calls).  Machine integers are
modelled as `Nat` (for unsigned) resp. `Int` (for `i64` timestamps); where
an overflow check matters (`u32` parsing) the bound `2 ^ 32` is explicit.
-/

namespace JuttmyCore

/-! ## Timer (src/ephemeral.rs, lines 78-119)

Rust:
```
pub enum Timer { Disabled, Enabled { duration: u32 } }
impl Timer {
    pub fn to_u32(self) -> u32 {
        match self { Self::Disabled => 0, Self::Enabled { duration } => duration }
    }
    pub fn from_u32(duration: u32) -> Self {
        if duration == 0 { Self::Disabled } else { Self::Enabled { duration } }
    }
}
```
`to_string` renders `to_u32` in decimal; `from_str` parses a `u32` in
decimal (failing on empty input, on a non-digit character and on values
not below `2 ^ 32`) and maps `from_u32` over the result.
-/

inductive Timer where
  | Disabled : Timer
  | Enabled : (duration : Nat) → Timer
  deriving DecidableEq, Repr

def Timer.to_u32 : Timer → Nat
  | .Disabled => 0
  | .Enabled duration => duration

def Timer.from_u32 (duration : Nat) : Timer :=
  if duration = 0 then .Disabled else .Enabled duration

/-- `impl Default for Timer` returns `Self::Disabled`. -/
instance : Inhabited Timer := ⟨Timer.Disabled⟩

/-- The values of `Timer` that the code itself ever constructs from
persisted data: `Enabled` always carries a nonzero `u32` duration. -/
def Timer.canonical : Timer → Prop
  | .Disabled => True
  | .Enabled duration => duration ≠ 0 ∧ duration < 2 ^ 32

instance : DecidablePred Timer.canonical := by
  intro t
  cases t <;> simp [Timer.canonical] <;> infer_instance

/-- The character for a single decimal digit value. -/
def charOfDigit (d : Nat) : Char := Char.ofNat (48 + d)

/-- Decimal rendering of a `u32`, as Rust's `u32::to_string`:
most-significant digit first, a single `'0'` for zero. -/
def natToChars (n : Nat) : List Char :=
  if n = 0 then ['0'] else ((Nat.digits 10 n).reverse).map charOfDigit

/-- `impl ToString for Timer`: `self.to_u32().to_string()`. -/
def Timer.to_string (t : Timer) : List Char := natToChars t.to_u32

def isDigitChar (c : Char) : Bool := decide (48 ≤ c.toNat ∧ c.toNat ≤ 57)

def digitVal (c : Char) : Nat := c.toNat - 48

/-- Rust's `str::parse::<u32>`: the input must be non-empty and all
digits, and the resulting value must fit in a `u32`. -/
def parseU32 (s : List Char) : Option Nat :=
  if s.isEmpty then none
  else if s.all isDigitChar then
    let v := Nat.ofDigits 10 ((s.map digitVal).reverse)
    if v < 2 ^ 32 then some v else none
  else none

/-- `impl FromStr for Timer`: `input.parse::<u32>().map(Self::from_u32)`. -/
def Timer.from_str (s : List Char) : Option Timer :=
  (parseU32 s).map Timer.from_u32

theorem charOfDigit_toNat {d : Nat} (hd : d < 10) : (charOfDigit d).toNat = 48 + d := by
  interval_cases d <;> rfl

theorem digitVal_charOfDigit {d : Nat} (hd : d < 10) : digitVal (charOfDigit d) = d := by
  simp [digitVal, charOfDigit_toNat hd]

theorem isDigitChar_charOfDigit {d : Nat} (hd : d < 10) :
    isDigitChar (charOfDigit d) = true := by
  simp only [isDigitChar, charOfDigit_toNat hd, decide_eq_true_eq]
  omega

/-- Decimal rendering of a `u32` parses back to the same value. -/
theorem parseU32_natToChars {n : Nat} (hn : n < 2 ^ 32) :
    parseU32 (natToChars n) = some n := by
  by_cases h0 : n = 0
  · subst h0; decide
  · have hne : Nat.digits 10 n ≠ [] := Nat.digits_ne_nil_iff_ne_zero.mpr h0
    have hlt : ∀ d ∈ (Nat.digits 10 n).reverse, d < 10 := by
      intro d hd
      exact Nat.digits_lt_base (by norm_num) (List.mem_reverse.mp hd)
    unfold natToChars parseU32
    rw [if_neg h0]
    have hemp : (((Nat.digits 10 n).reverse).map charOfDigit).isEmpty = false := by
      simp [List.isEmpty_iff, hne]
    rw [hemp]
    simp only [Bool.false_eq_true, if_false]
    have hall : (((Nat.digits 10 n).reverse).map charOfDigit).all isDigitChar = true := by
      rw [List.all_eq_true]
      intro c hc
      obtain ⟨d, hd, rfl⟩ := List.mem_map.mp hc
      exact isDigitChar_charOfDigit (hlt d hd)
    rw [hall]
    have hmap : (((Nat.digits 10 n).reverse).map charOfDigit).map digitVal
        = (Nat.digits 10 n).reverse := by
      rw [List.map_map]
      have := List.map_congr_left (l := (Nat.digits 10 n).reverse)
        (f := digitVal ∘ charOfDigit) (g := id)
        (fun d hd => digitVal_charOfDigit (hlt d hd))
      rw [this, List.map_id]
    simp only [hmap, List.reverse_reverse, Nat.ofDigits_digits, if_pos hn, if_true]

/-- C3 counterexample: the claim quantifies over every value of the
`Timer` type, including `Enabled { duration: 0 }`, which Rust's struct
variant admits.  At `t = Timer.Enabled 0` both roundtrips collapse to
`Disabled`, so `Timer.from_u32 (t.to_u32) ≠ t`. -/
theorem timer_roundtrip_counterexample :
    Timer.from_u32 ((Timer.Enabled 0).to_u32) = Timer.Disabled ∧
    Timer.from_str ((Timer.Enabled 0).to_string) = some Timer.Disabled ∧
    Timer.Enabled 0 ≠ Timer.Disabled := by
  exact ⟨rfl, by decide, by decide⟩

/-- C3 (amended): for every canonical value `t` of the `Timer` type —
`Disabled`, or `Enabled {duration}` with a nonzero `u32` duration, which
is exactly the image of `from_u32` — `Timer.from_u32 (t.to_u32)` equals
`t`, and parsing the decimal string `t.to_string()` with
`Timer::from_str` succeeds and yields `t`. -/
theorem timer_roundtrip (t : Timer) (h : t.canonical) :
    Timer.from_u32 t.to_u32 = t ∧ Timer.from_str t.to_string = some t := by
  constructor
  · cases t with
    | Disabled => rfl
    | Enabled d =>
        obtain ⟨h1, _⟩ := h
        simp [Timer.to_u32, Timer.from_u32, h1]
  · cases t with
    | Disabled => decide
    | Enabled d =>
        obtain ⟨h1, h2⟩ := h
        unfold Timer.from_str Timer.to_string
        show ((parseU32 (natToChars d)).map Timer.from_u32) = _
        rw [parseU32_natToChars h2]
        simp [Timer.from_u32, h1]

/-- C3 witness: the amended roundtrip at the concrete timer of one minute. -/
theorem timer_roundtrip_witness :
    Timer.from_u32 ((Timer.Enabled 60).to_u32) = Timer.Enabled 60 ∧
    Timer.from_str ((Timer.Enabled 60).to_string) = some (Timer.Enabled 60) :=
  timer_roundtrip (Timer.Enabled 60) (by decide)

/-! ## Reserved chat ids

`constants.rs` is not under `src/`; the values below follow the spec.
The claims only rely on the trash chat being one of the reserved special
ids and on chat id `0` being the out-of-band default. -/

/-- Modelled from the spec: `DC_CHAT_ID_TRASH` is "a reserved chat id"
(§3, Trash chat); the constants module itself is missing from `src/`. -/
def DC_CHAT_ID_TRASH : Nat := 3

/-- Modelled from the spec: the last reserved ("special") chat id; real
chats have strictly larger ids (§4.4, expiry sweep step 2). -/
def DC_CHAT_ID_LAST_SPECIAL : Nat := 9

/-- Modelled from the spec: `ChatId::is_special` (`chat.rs` is missing
from `src/`) — whether the id lies in the reserved range (§4.4: the inner
setter "rejects special (reserved) chat ids"). -/
def ChatId.is_special (id : Nat) : Bool := decide (id ≤ DC_CHAT_ID_LAST_SPECIAL)

/-! ## Message rows (the `msgs` table, as used by src/ephemeral.rs) -/

structure MsgRow where
  id : Nat
  chat_id : Nat
  txt : String
  timestamp : Int
  ephemeral_timer : Nat
  ephemeral_timestamp : Int
  server_uid : Nat
  deriving DecidableEq, Repr

/-- Device-wide configuration the ephemeral engine reads from the
context: the two cleanup windows and the chat ids that
`lookup_by_contact_id(SELF/DEVICE).unwrap_or_default().0` resolves to. -/
structure DeviceConfig where
  delete_device_after : Option Int
  delete_server_after : Option Int
  self_chat_id : Nat
  device_chat_id : Nat
  deriving DecidableEq, Repr

/-- The `SELECT ephemeral_timer FROM msgs WHERE id=?` query. -/
def msgEphemeralTimerCol (msgs : List MsgRow) (id : Nat) : Option Nat :=
  (msgs.find? fun r => r.id == id).map (·.ephemeral_timer)

/-- `MsgId::ephemeral_timer` (src/ephemeral.rs, lines 233-246):
`None | Some(0)` decodes to `Disabled`, anything else to `Enabled`. -/
def MsgId.ephemeral_timer (msgs : List MsgRow) (id : Nat) : Timer :=
  match msgEphemeralTimerCol msgs id with
  | none => .Disabled
  | some 0 => .Disabled
  | some d => .Enabled d

/-- The row transformer of the `UPDATE` inside
`MsgId::start_ephemeral_timer` (lines 256-259): set
`ephemeral_timestamp` where `(ephemeral_timestamp == 0 OR
ephemeral_timestamp > ?) AND id = ?`. -/
def armRow (ephemeral_timestamp : Int) (id : Nat) (r : MsgRow) : MsgRow :=
  if (r.ephemeral_timestamp == 0 || decide (ephemeral_timestamp < r.ephemeral_timestamp))
      && r.id == id then
    { r with ephemeral_timestamp := ephemeral_timestamp }
  else r

/-- `MsgId::start_ephemeral_timer` (src/ephemeral.rs, lines 249-265).
`schedule_ephemeral_task` touches no message row and is omitted. -/
def MsgId.start_ephemeral_timer (msgs : List MsgRow) (id : Nat) (now : Int) : List MsgRow :=
  match MsgId.ephemeral_timer msgs id with
  | .Disabled => msgs
  | .Enabled duration => msgs.map (armRow (now + (duration : Int)) id)

/-- The `WHERE` clause of the first `UPDATE` of
`delete_expired_messages` (lines 280-286): `ephemeral_timestamp != 0 AND
ephemeral_timestamp < now AND chat_id != TRASH`. -/
def expiredByTimer (now : Int) (r : MsgRow) : Bool :=
  r.ephemeral_timestamp != 0 && decide (r.ephemeral_timestamp < now)
    && r.chat_id != DC_CHAT_ID_TRASH

/-- The `SET txt = 'DELETED', chat_id = TRASH` part of both updates. -/
def moveToTrash (r : MsgRow) : MsgRow :=
  { r with txt := "DELETED", chat_id := DC_CHAT_ID_TRASH }

/-- The `WHERE` clause of the second `UPDATE` (lines 310-315):
`timestamp < threshold AND chat_id > LAST_SPECIAL AND chat_id !=
self_chat AND chat_id != device_chat`. -/
def expiredByAge (threshold : Int) (self_chat_id device_chat_id : Nat) (r : MsgRow) : Bool :=
  decide (r.timestamp < threshold) && decide (DC_CHAT_ID_LAST_SPECIAL < r.chat_id)
    && r.chat_id != self_chat_id && r.chat_id != device_chat_id

/-- `delete_expired_messages` (src/ephemeral.rs, lines 276-331): two
updates in sequence; the returned flag is true when either affected a
row.  `schedule_ephemeral_task` touches no message row and is omitted. -/
def delete_expired_messages (msgs : List MsgRow) (cfg : DeviceConfig) (now : Int) :
    List MsgRow × Bool :=
  let updated := decide (0 < msgs.countP (fun r => expiredByTimer now r))
  let msgs1 := msgs.map fun r => if expiredByTimer now r then moveToTrash r else r
  match cfg.delete_device_after with
  | none => (msgs1, updated)
  | some delete_device_after =>
      let threshold := now - delete_device_after
      let age := expiredByAge threshold cfg.self_chat_id cfg.device_chat_id
      let rows_modified := msgs1.countP fun r => age r
      let msgs2 := msgs1.map fun r => if age r then moveToTrash r else r
      (msgs2, updated || decide (0 < rows_modified))

/-- `load_imap_deletion_msgid` (src/ephemeral.rs, lines 406-428). -/
def load_imap_deletion_msgid (msgs : List MsgRow) (cfg : DeviceConfig) (now : Int) :
    Option Nat :=
  let threshold_timestamp : Int :=
    match cfg.delete_server_after with
    | none => 0
    | some delete_server_after => now - delete_server_after
  (msgs.find? fun r =>
      (decide (r.timestamp < threshold_timestamp)
          || (r.ephemeral_timestamp != 0 && decide (r.ephemeral_timestamp < now)))
        && r.server_uid != 0).map (·.id)

/-! ## Chat rows and the chat timer setters (src/ephemeral.rs, 146-205) -/

structure ChatRow where
  id : Nat
  ephemeral_timer : Timer
  deriving DecidableEq, Repr

inductive EventType where
  | ChatEphemeralTimerModified : (chat_id : Nat) → (timer : Timer) → EventType
  | MsgsChanged : (chat_id : Nat) → (msg_id : Nat) → EventType
  deriving DecidableEq, Repr

/-- Chat-side state the setters touch: the `chats` table, the emitted
events, and the system messages whose send succeeded. -/
structure ChatsState where
  chats : List ChatRow
  events : List EventType
  sent_system_msgs : List (Nat × Timer)
  deriving DecidableEq, Repr

inductive ChatError where
  | invalidChatId : ChatError
  deriving DecidableEq, Repr

/-- The `SELECT ephemeral_timer FROM chats WHERE id=?` query. -/
def queryChatTimer (chats : List ChatRow) (id : Nat) : Option Timer :=
  (chats.find? fun r => r.id == id).map (·.ephemeral_timer)

/-- `ChatId::get_ephemeral_timer` (src/ephemeral.rs, lines 148-157):
`Ok(timer.unwrap_or_default())`. -/
def ChatId.get_ephemeral_timer (chats : List ChatRow) (id : Nat) : Except ChatError Timer :=
  .ok ((queryChatTimer chats id).getD default)

/-- `ChatId::inner_set_ephemeral_timer` (src/ephemeral.rs, lines
163-185): reject special ids, update the column, emit exactly one
`ChatEphemeralTimerModified`. -/
def ChatId.inner_set_ephemeral_timer (st : ChatsState) (id : Nat) (timer : Timer) :
    Except ChatError ChatsState :=
  if ChatId.is_special id then .error .invalidChatId
  else .ok { st with
    chats := st.chats.map fun r =>
      if r.id == id then { r with ephemeral_timer := timer } else r,
    events := st.events ++ [.ChatEphemeralTimerModified id timer] }

/-- `ChatId::set_ephemeral_timer` (src/ephemeral.rs, lines 190-205).
`sendOk` is the outcome of the `send_msg` call for the system message; a
failure is only logged, never surfaced. -/
def ChatId.set_ephemeral_timer (st : ChatsState) (id : Nat) (timer : Timer)
    (sendOk : Bool) : Except ChatError ChatsState :=
  match ChatId.get_ephemeral_timer st.chats id with
  | .error e => .error e
  | .ok current =>
      if timer = current then .ok st
      else
        match ChatId.inner_set_ephemeral_timer st id timer with
        | .error e => .error e
        | .ok st1 =>
            if sendOk then
              .ok { st1 with sent_system_msgs := st1.sent_system_msgs ++ [(id, timer)] }
            else .ok st1

/-- C10: `get_ephemeral_timer` never fails just because the chat id has
no row in the `chats` table: when the query returns no value the call
succeeds and returns the default `Timer.Disabled`. -/
theorem get_ephemeral_timer_missing_row (chats : List ChatRow) (id : Nat)
    (h : ∀ r ∈ chats, r.id ≠ id) :
    ChatId.get_ephemeral_timer chats id = .ok Timer.Disabled := by
  unfold ChatId.get_ephemeral_timer queryChatTimer
  rw [List.find?_eq_none.mpr (fun r hr => by simpa using h r hr)]
  rfl

/-- C10 witness: a one-chat table queried at an absent id. -/
theorem get_ephemeral_timer_missing_row_witness :
    ChatId.get_ephemeral_timer [⟨1, Timer.Enabled 60⟩] 2 = .ok Timer.Disabled :=
  get_ephemeral_timer_missing_row [⟨1, Timer.Enabled 60⟩] 2 (by decide)

/-- C6: for a message whose per-message timer is enabled with duration
`d`, `start_ephemeral_timer` maps `armRow (now + d)` over the table, and
`armRow` sets the row's `ephemeral_timestamp` to `now + d` exactly when
the existing timestamp is `0` or strictly greater than `now + d`; an
armed (nonzero) expiry time is never moved later. -/
theorem start_ephemeral_timer_spec (msgs : List MsgRow) (id : Nat) (now : Int)
    (d : Nat) (r : MsgRow) (ht : MsgId.ephemeral_timer msgs id = .Enabled d)
    (hr : r.id = id) :
    MsgId.start_ephemeral_timer msgs id now = msgs.map (armRow (now + (d : Int)) id) ∧
    (armRow (now + (d : Int)) id r).ephemeral_timestamp =
      (if r.ephemeral_timestamp = 0 ∨ now + (d : Int) < r.ephemeral_timestamp
        then now + (d : Int) else r.ephemeral_timestamp) ∧
    (r.ephemeral_timestamp ≠ 0 →
      (armRow (now + (d : Int)) id r).ephemeral_timestamp ≤ r.ephemeral_timestamp) := by
  refine ⟨by unfold MsgId.start_ephemeral_timer; rw [ht], ?_, ?_⟩
  · unfold armRow
    split
    · next hcond =>
        simp only [Bool.and_eq_true, Bool.or_eq_true, beq_iff_eq,
          decide_eq_true_eq] at hcond
        rw [if_pos hcond.1]
    · next hcond =>
        simp only [Bool.and_eq_true, Bool.or_eq_true, beq_iff_eq,
          decide_eq_true_eq] at hcond
        rw [if_neg fun h => hcond ⟨h, hr⟩]
  · intro hne
    unfold armRow
    split
    · next hcond =>
        simp only [Bool.and_eq_true, Bool.or_eq_true, beq_iff_eq, decide_eq_true_eq] at hcond
        rcases hcond.1 with h | h
        · exact absurd h hne
        · exact le_of_lt h
    · exact le_refl _

/-- C6 witness: a message with timer 60 and an armed expiry later than
`now + 60` gets pulled in, never pushed out. -/
theorem start_ephemeral_timer_spec_witness :
    MsgId.start_ephemeral_timer
        [⟨5, 10, "hi", 0, 60, 1000, 0⟩] 5 100
      = [⟨5, 10, "hi", 0, 60, 1000, 0⟩].map (armRow (100 + (60 : Int)) 5) ∧
    (armRow (100 + (60 : Int)) 5 ⟨5, 10, "hi", 0, 60, 1000, 0⟩).ephemeral_timestamp =
      (if (1000 : Int) = 0 ∨ 100 + (60 : Int) < 1000
        then 100 + (60 : Int) else 1000) ∧
    ((1000 : Int) ≠ 0 →
      (armRow (100 + (60 : Int)) 5 ⟨5, 10, "hi", 0, 60, 1000, 0⟩).ephemeral_timestamp
        ≤ 1000) :=
  start_ephemeral_timer_spec [⟨5, 10, "hi", 0, 60, 1000, 0⟩] 5 100 60
    ⟨5, 10, "hi", 0, 60, 1000, 0⟩ (by decide) rfl

/-- C8: `load_imap_deletion_msgid` returns `some id` only for a row with
`server_uid ≠ 0` whose `timestamp` is below the threshold — `0` when
`delete_server_after` is unset, `now - delete_server_after` otherwise —
or whose nonzero `ephemeral_timestamp` is in the past; when no row
qualifies it returns `none`. -/
theorem load_imap_deletion_msgid_spec (msgs : List MsgRow) (cfg : DeviceConfig)
    (now : Int) :
    (∀ id, load_imap_deletion_msgid msgs cfg now = some id →
      ∃ r ∈ msgs, r.id = id ∧ r.server_uid ≠ 0 ∧
        (r.timestamp < (match cfg.delete_server_after with
            | none => (0 : Int)
            | some delete_server_after => now - delete_server_after) ∨
          (r.ephemeral_timestamp ≠ 0 ∧ r.ephemeral_timestamp < now))) ∧
    ((∀ r ∈ msgs, ¬(r.server_uid ≠ 0 ∧
        (r.timestamp < (match cfg.delete_server_after with
            | none => (0 : Int)
            | some delete_server_after => now - delete_server_after) ∨
          (r.ephemeral_timestamp ≠ 0 ∧ r.ephemeral_timestamp < now)))) →
      load_imap_deletion_msgid msgs cfg now = none) := by
  constructor
  · intro id hid
    unfold load_imap_deletion_msgid at hid
    rw [Option.map_eq_some'] at hid
    obtain ⟨r, hfind, hr⟩ := hid
    refine ⟨r, List.mem_of_find?_eq_some hfind, hr, ?_⟩
    have hp := List.find?_some hfind
    simp only [Bool.and_eq_true, Bool.or_eq_true, bne_iff_ne, decide_eq_true_eq] at hp
    exact ⟨hp.2, hp.1⟩
  · intro hnone
    simp only [load_imap_deletion_msgid]
    rw [Option.map_eq_none']
    apply List.find?_eq_none.mpr
    intro r hrm
    simp only [Bool.and_eq_true, Bool.or_eq_true, bne_iff_ne, decide_eq_true_eq,
      Bool.not_eq_true]
    intro hc
    exact absurd ⟨hc.2, hc.1⟩ (hnone r hrm)

/-- C8 witness: with `delete_server_after` unset and a single fresh row
still on the server, no candidate is returned. -/
theorem load_imap_deletion_msgid_spec_witness :
    load_imap_deletion_msgid [⟨5, 10, "hi", 50, 0, 0, 7⟩]
      ⟨none, none, 0, 0⟩ 100 = none :=
  (load_imap_deletion_msgid_spec [⟨5, 10, "hi", 50, 0, 0, 7⟩]
      ⟨none, none, 0, 0⟩ 100).2 (by decide)

/-- A conditional map over rows whose condition holds nowhere is the
identity (an `UPDATE` whose `WHERE` clause matches no row). -/
theorem map_ite_eq_self {α : Type} (p : α → Bool) (f : α → α) (l : List α)
    (h : ∀ a ∈ l, p a = false) :
    (l.map fun a => if p a then f a else a) = l := by
  rw [List.map_congr_left (g := id) fun a ha => by rw [h a ha]; rfl, List.map_id]

/-- A sweep that reports `false` changed nothing; hence it is a fixed
point of `delete_expired_messages` at the same clock and config. -/
theorem delete_expired_messages_noop (msgs : List MsgRow) (cfg : DeviceConfig)
    (now : Int) (h : (delete_expired_messages msgs cfg now).2 = false) :
    delete_expired_messages msgs cfg now = (msgs, false) := by
  rcases hdda : cfg.delete_device_after with _ | dda
  · simp only [delete_expired_messages, hdda] at h ⊢
    simp only [decide_eq_false_iff_not, Nat.not_lt, Nat.le_zero,
      List.countP_eq_zero, Bool.not_eq_true] at h
    rw [map_ite_eq_self _ _ _ h]
    have hc1 : List.countP (fun r => expiredByTimer now r) msgs = 0 :=
      List.countP_eq_zero.mpr fun a ha => by simp [h a ha]
    simp [hc1]
  · simp only [delete_expired_messages, hdda] at h ⊢
    simp only [Bool.or_eq_false_iff, decide_eq_false_iff_not, Nat.not_lt,
      Nat.le_zero, List.countP_eq_zero, Bool.not_eq_true] at h
    obtain ⟨h1, h2⟩ := h
    rw [map_ite_eq_self _ _ _ h1] at h2
    rw [map_ite_eq_self _ _ _ h1, map_ite_eq_self _ _ _ h2]
    have hc1 : List.countP (fun r => expiredByTimer now r) msgs = 0 :=
      List.countP_eq_zero.mpr fun a ha => by simp [h1 a ha]
    have hc2 : List.countP
        (fun r => expiredByAge (now - dda) cfg.self_chat_id cfg.device_chat_id r)
        msgs = 0 :=
      List.countP_eq_zero.mpr fun a ha => by simp [h2 a ha]
    simp [hc1, hc2]

/-- C4: `delete_expired_messages` returns true iff at least one row
matched the `WHERE` clause of one of its two `UPDATE`s (such a row is
moved to trash: both clauses exclude rows already in the trash chat);
consequently after a call returns false, an immediately repeated call
with no state change and no clock advance also returns false. -/
theorem delete_expired_messages_spec (msgs : List MsgRow) (cfg : DeviceConfig)
    (now : Int) :
    ((delete_expired_messages msgs cfg now).2 = true ↔
      (∃ r ∈ msgs, expiredByTimer now r = true) ∨
      (∃ delete_device_after, cfg.delete_device_after = some delete_device_after ∧
        ∃ r ∈ msgs.map fun r => if expiredByTimer now r then moveToTrash r else r,
          expiredByAge (now - delete_device_after) cfg.self_chat_id
            cfg.device_chat_id r = true)) ∧
    ((delete_expired_messages msgs cfg now).2 = false →
      delete_expired_messages (delete_expired_messages msgs cfg now).1 cfg now
        = ((delete_expired_messages msgs cfg now).1, false)) := by
  constructor
  · rcases hdda : cfg.delete_device_after with _ | dda
    · simp [delete_expired_messages, hdda, List.countP_pos_iff]
    · simp [delete_expired_messages, hdda, List.countP_pos_iff]
  · intro hfalse
    have hfix := delete_expired_messages_noop msgs cfg now hfalse
    rw [hfix]
    exact delete_expired_messages_noop msgs cfg now (by rw [hfix])

/-- C4 witness: a table with one unexpired row yields `false`, and the
repeated call is again `false` on the unchanged table. -/
theorem delete_expired_messages_spec_witness :
    delete_expired_messages
        (delete_expired_messages [⟨5, 10, "hi", 90, 0, 0, 7⟩] ⟨none, none, 0, 0⟩ 100).1
        ⟨none, none, 0, 0⟩ 100
      = ((delete_expired_messages [⟨5, 10, "hi", 90, 0, 0, 7⟩] ⟨none, none, 0, 0⟩ 100).1,
          false) :=
  (delete_expired_messages_spec [⟨5, 10, "hi", 90, 0, 0, 7⟩]
      ⟨none, none, 0, 0⟩ 100).2 (by decide)

/-- Updating the timer column of an existing chat row makes the lookup
return the new value. -/
theorem queryChatTimer_map_set (chats : List ChatRow) (id : Nat) (t : Timer)
    (hex : ∃ r ∈ chats, r.id = id) :
    queryChatTimer
        (chats.map fun r => if r.id == id then { r with ephemeral_timer := t } else r) id
      = some t := by
  obtain ⟨r0, hmem, hid⟩ := hex
  induction chats with
  | nil => cases hmem
  | cons a l ih =>
      rcases List.mem_cons.mp hmem with rfl | hml
      · simp [queryChatTimer, hid]
      · by_cases ha : a.id = id
        · simp [queryChatTimer, ha]
        · have htail := ih hml
          simp only [queryChatTimer, List.map_cons] at htail ⊢
          rw [if_neg (by simpa using ha), List.find?_cons_of_neg _ (by simpa using ha)]
          exact htail

/-- C5: for a non-special chat with a stored row, `set_ephemeral_timer`
is a no-op (state returned unchanged: no row written, no event emitted)
when the stored timer already equals the requested one; otherwise it
updates the `chats.ephemeral_timer` column and emits exactly one
`ChatEphemeralTimerModified`, and a failed system-message send
(`sendOk = false`) never makes the call fail. -/
theorem set_ephemeral_timer_spec (st : ChatsState) (id : Nat) (t : Timer)
    (sendOk : Bool) (hns : ChatId.is_special id = false)
    (hex : ∃ r ∈ st.chats, r.id = id) :
    (ChatId.get_ephemeral_timer st.chats id = .ok t →
      ChatId.set_ephemeral_timer st id t sendOk = .ok st) ∧
    (ChatId.get_ephemeral_timer st.chats id ≠ .ok t →
      ∃ st1, ChatId.set_ephemeral_timer st id t sendOk = .ok st1 ∧
        st1.chats = st.chats.map (fun r =>
          if r.id == id then { r with ephemeral_timer := t } else r) ∧
        ChatId.get_ephemeral_timer st1.chats id = .ok t ∧
        st1.events = st.events ++ [.ChatEphemeralTimerModified id t]) := by
  constructor
  · intro heq
    have heq' : (queryChatTimer st.chats id).getD default = t := by
      unfold ChatId.get_ephemeral_timer at heq
      exact Except.ok.inj heq
    simp only [ChatId.set_ephemeral_timer, ChatId.get_ephemeral_timer]
    rw [if_pos heq'.symm]
  · intro hne
    have hcur : ¬ t = (queryChatTimer st.chats id).getD default := fun hc =>
      hne (by unfold ChatId.get_ephemeral_timer; rw [hc])
    have hq := queryChatTimer_map_set st.chats id t hex
    cases sendOk with
    | false =>
        refine ⟨⟨st.chats.map fun r =>
            if r.id == id then { r with ephemeral_timer := t } else r,
          st.events ++ [.ChatEphemeralTimerModified id t],
          st.sent_system_msgs⟩, ?_, rfl, ?_, rfl⟩
        · simp only [ChatId.set_ephemeral_timer, ChatId.get_ephemeral_timer,
            ChatId.inner_set_ephemeral_timer, hns]
          rw [if_neg hcur]
          rfl
        · unfold ChatId.get_ephemeral_timer
          show Except.ok ((queryChatTimer _ id).getD default) = _
          rw [hq]
          rfl
    | true =>
        refine ⟨⟨st.chats.map fun r =>
            if r.id == id then { r with ephemeral_timer := t } else r,
          st.events ++ [.ChatEphemeralTimerModified id t],
          st.sent_system_msgs ++ [(id, t)]⟩, ?_, rfl, ?_, rfl⟩
        · simp only [ChatId.set_ephemeral_timer, ChatId.get_ephemeral_timer,
            ChatId.inner_set_ephemeral_timer, hns]
          rw [if_neg hcur]
          rfl
        · unfold ChatId.get_ephemeral_timer
          show Except.ok ((queryChatTimer _ id).getD default) = _
          rw [hq]
          rfl

/-- C5 witness: setting the already-stored value on a real chat returns
the state unchanged. -/
theorem set_ephemeral_timer_spec_witness :
    ChatId.set_ephemeral_timer ⟨[⟨10, Timer.Enabled 60⟩], [], []⟩ 10
        (Timer.Enabled 60) true
      = .ok ⟨[⟨10, Timer.Enabled 60⟩], [], []⟩ :=
  (set_ephemeral_timer_spec ⟨[⟨10, Timer.Enabled 60⟩], [], []⟩ 10
      (Timer.Enabled 60) true (by decide) ⟨⟨10, Timer.Enabled 60⟩, by decide, rfl⟩).1
    rfl

/-! ## Account registry (src/accounts.rs)

`InnerConfig` is the persisted registry.  `Config::sync` rewrites the
whole file from the in-memory value and is modelled as infallible, so a
`Config` operation is a pure function on `InnerConfig`.  Filesystem and
`Context` construction outcomes are injected through an environment
record.  Account ids, and the UUID-named account directories, are `Nat`
tokens. -/

structure AccountConfig where
  id : Nat
  dir : Nat
  deriving DecidableEq, Repr

structure InnerConfig where
  os_name : String
  selected_account : Nat
  next_id : Nat
  accounts : List AccountConfig
  deriving DecidableEq, Repr

inductive AccErr where
  | noDatabase : AccErr
  | noBlobdir : AccErr
  | noAccount : (id : Nat) → AccErr
  | invalidAccountId : (id : Nat) → AccErr
  | fsCreateDir : AccErr
  | fsRenameDb : AccErr
  | fsRenameBlob : AccErr
  | fsRemoveDir : AccErr
  | ctxFailed : AccErr
  deriving DecidableEq, Repr

/-- `Config::select_account` (src/accounts.rs, lines 395-409):
`ensure!` the id is present, then set `selected_account`. -/
def Config.select_account (c : InnerConfig) (id : Nat) : Except AccErr InnerConfig :=
  if c.accounts.any fun e => e.id == id then .ok { c with selected_account := id }
  else .error (.invalidAccountId id)

/-- `Config::new_account` (src/accounts.rs, lines 341-362): allocate
`next_id`, append the entry with a fresh UUID directory, bump `next_id`,
then select the new account (the `select_account` there cannot fail — the
entry was just appended — hence the source's `.expect("just added")`). -/
def Config.new_account (c : InnerConfig) (uuid : Nat) : InnerConfig × Nat :=
  let id := c.next_id
  let c1 : InnerConfig :=
    { c with accounts := c.accounts ++ [⟨id, uuid⟩], next_id := c.next_id + 1 }
  ({ c1 with selected_account := id }, id)

/-- `Config::remove_account` (src/accounts.rs, lines 365-379): drop the
first entry with the id, if any; if the removed id was selected, reselect
`accounts.get(0)`'s id, defaulting to 0. -/
def Config.remove_account (c : InnerConfig) (id : Nat) : InnerConfig :=
  if c.selected_account = id then
    { c with accounts := c.accounts.eraseP fun e => e.id == id,
             selected_account :=
               (((c.accounts.eraseP fun e => e.id == id).head?).map
                  AccountConfig.id).getD 0 }
  else { c with accounts := c.accounts.eraseP fun e => e.id == id }

/-- `Config::get_account` (src/accounts.rs, lines 381-389). -/
def Config.get_account (c : InnerConfig) (id : Nat) : Option AccountConfig :=
  c.accounts.find? fun e => e.id == id

/-- The account manager: the ids of the loaded `Context`s (the keys of
the `accounts: BTreeMap<u32, Context>`) plus the registry. -/
structure AccountsState where
  ctxs : List Nat
  cfg : InnerConfig
  deriving DecidableEq, Repr

/-- `Accounts::remove_account` (src/accounts.rs, lines 104-119): take the
`Context` out of the map and fail if there was none; if the registry
still has the entry, remove its directory (`rmOk` is that filesystem
outcome; a failure is surfaced before the registry is touched); then
`Config::remove_account`. -/
def Accounts.remove_account (st : AccountsState) (rmOk : Bool) (id : Nat) :
    AccountsState × Except AccErr Unit :=
  if st.ctxs.contains id then
    let st1 : AccountsState := { st with ctxs := st.ctxs.erase id }
    match Config.get_account st1.cfg id with
    | some _ =>
        if rmOk then ({ st1 with cfg := Config.remove_account st1.cfg id }, .ok ())
        else (st1, .error .fsRemoveDir)
    | none => ({ st1 with cfg := Config.remove_account st1.cfg id }, .ok ())
  else (st, .error (.noAccount id))

/-- Environment of one `Accounts::migrate_account` call: whether the
external db file and blob dir exist, the outcomes of the three
filesystem steps and of the `Context::with_blobdir` construction, and
the generated UUID. -/
structure MigrateEnv where
  dbfileExists : Bool
  blobdirExists : Bool
  createDirOk : Bool
  renameDbOk : Bool
  renameBlobOk : Bool
  ctxOk : Bool
  uuid : Nat
  deriving DecidableEq, Repr

/-- `Accounts::migrate_account` (src/accounts.rs, lines 122-177).  The
registry is mutated in place behind a lock, so the final state is
returned alongside the result even when the call errors.

The three filesystem calls sit inside a plain `let res = { ... }` block;
a `?` there returns from `migrate_account` itself (only closures and
async blocks are `?` boundaries), so on any filesystem failure the
function returns that error immediately, with the fresh registry entry
still appended and selected and `next_id` bumped.  Consequently `res` is
always `Ok(())` and the `Err(err)` arm of the `match` at lines 163-175 —
remove the partial dir, `Config::remove_account`, re-select `old_id` —
is unreachable; the binding of `old_id` at line 136 is likewise dead in
every reachable path, and neither is modelled below. -/
def Accounts.migrate_account (st : AccountsState) (env : MigrateEnv) :
    AccountsState × Except AccErr Nat :=
  if env.dbfileExists = false then (st, .error .noDatabase)
  else if env.blobdirExists = false then (st, .error .noBlobdir)
  else
    let p := Config.new_account st.cfg env.uuid
    let st1 : AccountsState := { st with cfg := p.1 }
    if env.createDirOk = false then (st1, .error .fsCreateDir)
    else if env.renameDbOk = false then (st1, .error .fsRenameDb)
    else if env.renameBlobOk = false then (st1, .error .fsRenameBlob)
    else if env.ctxOk then ({ st1 with ctxs := st1.ctxs ++ [p.2] }, .ok p.2)
    else (st1, .error .ctxFailed)

/-- In a registry whose accounts are sorted by strictly increasing id —
the invariant every registry built by `new_account`/`remove_account`
satisfies — the first entry has the smallest id. -/
theorem head_min_of_sorted (l : List AccountConfig)
    (hs : l.Pairwise fun a b => a.id < b.id) (a : AccountConfig)
    (hh : l.head? = some a) : ∀ b ∈ l, a.id ≤ b.id := by
  cases l with
  | nil => cases hh
  | cons x xs =>
      cases hh
      intro b hb
      rcases List.mem_cons.mp hb with rfl | hbs
      · exact le_refl _
      · exact le_of_lt ((List.pairwise_cons.mp hs).1 b hbs)

/-- C7: removing the currently selected account reselects the smallest
remaining id (0 when the registry becomes empty); removing a
non-selected account leaves `selected_account` unchanged.  `hsorted` is
the registry invariant: entries are sorted by strictly increasing id. -/
theorem remove_account_selection (st : AccountsState) (id : Nat)
    (hctx : id ∈ st.ctxs) (rmOk : Bool) (hrm : rmOk = true)
    (hsorted : st.cfg.accounts.Pairwise fun a b => a.id < b.id) :
    (Accounts.remove_account st rmOk id).2 = .ok () ∧
    ((Accounts.remove_account st rmOk id).1).cfg.accounts
      = st.cfg.accounts.eraseP (fun e => e.id == id) ∧
    (st.cfg.selected_account = id →
      (((Accounts.remove_account st rmOk id).1).cfg.accounts = [] ∧
        ((Accounts.remove_account st rmOk id).1).cfg.selected_account = 0) ∨
      (((Accounts.remove_account st rmOk id).1).cfg.selected_account
          ∈ (((Accounts.remove_account st rmOk id).1).cfg.accounts).map AccountConfig.id ∧
        ∀ a ∈ ((Accounts.remove_account st rmOk id).1).cfg.accounts,
          ((Accounts.remove_account st rmOk id).1).cfg.selected_account ≤ a.id)) ∧
    (st.cfg.selected_account ≠ id →
      ((Accounts.remove_account st rmOk id).1).cfg.selected_account
        = st.cfg.selected_account) := by
  subst hrm
  have hres : Accounts.remove_account st true id
      = (⟨st.ctxs.erase id, Config.remove_account st.cfg id⟩, .ok ()) := by
    unfold Accounts.remove_account
    rw [if_pos (List.elem_eq_true_of_mem hctx)]
    cases hget : Config.get_account st.cfg id <;> simp [hget]
  rw [hres]
  have herase : (st.cfg.accounts.eraseP fun e => e.id == id).Pairwise
      (fun a b => a.id < b.id) :=
    hsorted.sublist (List.eraseP_sublist _)
  refine ⟨rfl, ?_, ?_, ?_⟩
  · unfold Config.remove_account
    split <;> rfl
  · intro hsel
    unfold Config.remove_account
    rw [if_pos hsel]
    cases hh : (st.cfg.accounts.eraseP fun e => e.id == id).head? with
    | none =>
        left
        exact ⟨List.head?_eq_none_iff.mp hh, rfl⟩
    | some a =>
        right
        have hmem : a ∈ st.cfg.accounts.eraseP fun e => e.id == id :=
          List.mem_of_mem_head? hh
        constructor
        · exact List.mem_map_of_mem _ hmem
        · intro b hb
          exact head_min_of_sorted _ herase a hh b hb
  · intro hsel
    unfold Config.remove_account
    rw [if_neg hsel]

/-- C7 witness: removing selected account 1 from a two-account registry
reselects account 2; the same removal when 2 is selected keeps 2. -/
theorem remove_account_selection_witness :
    (Accounts.remove_account ⟨[1, 2], ⟨"os", 1, 3, [⟨1, 11⟩, ⟨2, 12⟩]⟩⟩ true 1).2
        = .ok () ∧
    ((Accounts.remove_account ⟨[1, 2], ⟨"os", 1, 3, [⟨1, 11⟩, ⟨2, 12⟩]⟩⟩ true 1).1).cfg.accounts
        = [⟨1, 11⟩, ⟨2, 12⟩].eraseP (fun e => e.id == 1) := by
  have h := remove_account_selection ⟨[1, 2], ⟨"os", 1, 3, [⟨1, 11⟩, ⟨2, 12⟩]⟩⟩ 1
    (by decide) true rfl (by decide)
  exact ⟨h.1, h.2.1⟩

/-- C1: the claimed rollback never runs.  The `?`s inside the plain
`let res = { ... }` block (src/accounts.rs, lines 144-149) return from
`migrate_account` itself, so on a filesystem failure the function
returns that error at once and the `Err` rollback arm of the `match`
(lines 163-175) is dead code.  Evaluated at the failing input — a
one-account registry with account 1 selected and a failing
`create_dir_all` — the call returns the create-dir error while the
registry keeps the freshly created entry 2, keeps it selected, and keeps
the bumped `next_id`: nothing is deleted, removed or restored. -/
theorem migrate_account_no_rollback :
    Accounts.migrate_account ⟨[1], ⟨"os", 1, 2, [⟨1, 11⟩]⟩⟩
        ⟨true, true, false, true, true, true, 42⟩
      = (⟨[1], ⟨"os", 2, 3, [⟨1, 11⟩, ⟨2, 42⟩]⟩⟩, .error .fsCreateDir) ∧
    (Accounts.migrate_account ⟨[1], ⟨"os", 1, 2, [⟨1, 11⟩]⟩⟩
        ⟨true, true, false, true, true, true, 42⟩).1.cfg.selected_account ≠ 1 ∧
    (Accounts.migrate_account ⟨[1], ⟨"os", 1, 2, [⟨1, 11⟩]⟩⟩
        ⟨true, true, false, true, true, true, 42⟩).1.cfg.accounts
      ≠ [⟨1, 11⟩] := by
  exact ⟨rfl, by decide, by decide⟩

/-! ## The inbox loop (src/scheduler.rs, lines 45-107)

One iteration of the `loop` in `inbox_loop` matches on
`job::load_next`:
* `Some(job) if jobs_loaded <= 20` — execute the job, `jobs_loaded += 1`;
* `Some(job)` — reset `jobs_loaded` and, when `InboxWatch` is set, run a
  fetch instead of the job (postponing it);
* `None` — reset `jobs_loaded` and idle (`fetch_idle` when `InboxWatch`
  is set, `fake_idle` otherwise).
The environment tells, per iteration, whether `load_next` finds a job. -/

inductive InboxAction where
  | execJob : InboxAction
  | postponeFetch : InboxAction
  | postponeNoWatch : InboxAction
  | idleFetchIdle : InboxAction
  | idleFakeIdle : InboxAction
  deriving DecidableEq, Repr

/-- One iteration of the inbox loop: the observable action and the new
`jobs_loaded` counter. -/
def inboxStep (inbox_watch job_ready : Bool) (jobs_loaded : Nat) :
    InboxAction × Nat :=
  if job_ready then
    if jobs_loaded ≤ 20 then (.execJob, jobs_loaded + 1)
    else if inbox_watch then (.postponeFetch, 0) else (.postponeNoWatch, 0)
  else if inbox_watch then (.idleFetchIdle, 0) else (.idleFakeIdle, 0)

/-- Run the loop for `n` iterations from iteration index `i` and counter
`s`, collecting the actions. -/
def inboxRun (inbox_watch : Bool) (jobs : Nat → Bool) :
    Nat → Nat → Nat → List InboxAction
  | _, _, 0 => []
  | i, s, n + 1 =>
      (inboxStep inbox_watch (jobs i) s).1 ::
        inboxRun inbox_watch jobs (i + 1) (inboxStep inbox_watch (jobs i) s).2 n

/-- The actions of the first `n` iterations of `inbox_loop`
(`jobs_loaded` starts at 0). -/
def inboxTrace (inbox_watch : Bool) (jobs : Nat → Bool) (n : Nat) :
    List InboxAction :=
  inboxRun inbox_watch jobs 0 0 n

def maxConsecExecAux : List InboxAction → Nat → Nat → Nat
  | [], cur, m => max cur m
  | a :: rest, cur, m =>
      if a = .execJob then maxConsecExecAux rest (cur + 1) (max (cur + 1) m)
      else maxConsecExecAux rest 0 m

/-- The length of the longest run of consecutive `execJob` actions. -/
def maxConsecExec (l : List InboxAction) : Nat := maxConsecExecAux l 0 0

/-- Invariant behind the job cap: along any run, the current streak of
executed jobs equals at most the `jobs_loaded` counter, which the guard
`jobs_loaded <= 20` keeps at 21 or below. -/
theorem maxConsecExecAux_le (w : Bool) (jobs : Nat → Bool) :
    ∀ (n i s cur m : Nat), cur ≤ s → s ≤ 21 → m ≤ 21 →
      maxConsecExecAux (inboxRun w jobs i s n) cur m ≤ 21 := by
  intro n
  induction n with
  | zero =>
      intro i s cur m h1 h2 h3
      simpa [inboxRun, maxConsecExecAux] using max_le (h1.trans h2) h3
  | succ n ih =>
      intro i s cur m h1 h2 h3
      by_cases hj : jobs i = true
      · by_cases hs : s ≤ 20
        · have hstep : inboxStep w (jobs i) s = (.execJob, s + 1) := by
            simp [inboxStep, hj, hs]
          simp only [inboxRun, hstep, maxConsecExecAux, if_pos rfl]
          exact ih (i + 1) (s + 1) (cur + 1) (max (cur + 1) m)
            (Nat.succ_le_succ h1) (Nat.succ_le_succ hs)
            (max_le (by omega) h3)
        · cases w with
          | true =>
              have hstep : inboxStep true (jobs i) s = (.postponeFetch, 0) := by
                simp [inboxStep, hj, hs]
              simp only [inboxRun, hstep, maxConsecExecAux]
              rw [if_neg (by decide)]
              exact ih (i + 1) 0 0 m (le_refl 0) (by omega) h3
          | false =>
              have hstep : inboxStep false (jobs i) s = (.postponeNoWatch, 0) := by
                simp [inboxStep, hj, hs]
              simp only [inboxRun, hstep, maxConsecExecAux]
              rw [if_neg (by decide)]
              exact ih (i + 1) 0 0 m (le_refl 0) (by omega) h3
      · cases w with
        | true =>
            have hstep : inboxStep true (jobs i) s = (.idleFetchIdle, 0) := by
              simp [inboxStep, hj]
            simp only [inboxRun, hstep, maxConsecExecAux]
            rw [if_neg (by decide)]
            exact ih (i + 1) 0 0 m (le_refl 0) (by omega) h3
        | false =>
            have hstep : inboxStep false (jobs i) s = (.idleFakeIdle, 0) := by
              simp [inboxStep, hj]
            simp only [inboxRun, hstep, maxConsecExecAux]
            rw [if_neg (by decide)]
            exact ih (i + 1) 0 0 m (le_refl 0) (by omega) h3

/-- C2 counterexample: with a job ready at every poll and `InboxWatch`
on, the first 21 iterations all execute jobs — after the 20th
consecutively executed job the next ready job is still executed (the
guard is `jobs_loaded <= 20` with the counter incremented after the
check), contradicting the claimed cap of 20. -/
theorem inbox_loop_job_cap_counterexample :
    inboxTrace true (fun _ => true) 21 = List.replicate 21 .execJob ∧
    (inboxStep true true 20).1 = InboxAction.execJob := by
  exact ⟨rfl, rfl⟩

/-- C2 (amended): in the inbox loop at most 21 jobs are executed
consecutively: no trace contains more than 21 consecutive job
executions, a ready job is never executed when `jobs_loaded` has reached
21, and at that point (with `InboxWatch` on) the loop forces a fetch —
concretely, with jobs always ready the trace is 21 executions followed
by a postponing fetch. -/
theorem inbox_loop_job_cap (w : Bool) (jobs : Nat → Bool) (n : Nat) :
    maxConsecExec (inboxTrace w jobs n) ≤ 21 ∧
    (inboxStep w true 21).1 ≠ InboxAction.execJob ∧
    inboxStep true true 21 = (.postponeFetch, 0) ∧
    inboxTrace true (fun _ => true) 22
      = List.replicate 21 .execJob ++ [.postponeFetch] := by
  refine ⟨maxConsecExecAux_le w jobs n 0 0 0 0
      (le_refl 0) (by omega) (by omega), ?_, rfl, rfl⟩
  cases w <;> decide

/-! ## IMAP idle (src/imap/idle.rs, lines 14-105)

The session is modelled by its queue of already-received unsolicited
responses; the outcomes of the external steps (`setup_handle`,
`select_folder`, `handle.init()`, the raced wait, `handle.done()`) come
from an environment record.  `issuedIdle` records whether the IDLE
command was sent (`session.idle()` + `init`). -/

structure InterruptInfo where
  probe_network : Bool
  msg_id : Option Nat
  deriving DecidableEq, Repr

/-- `#[derive(Default)]`: `probe_network = false`, `msg_id = None`. -/
instance : Inhabited InterruptInfo := ⟨⟨false, none⟩⟩

inductive UnsolicitedResponse where
  | Exists : (count : Nat) → UnsolicitedResponse
  | Other : UnsolicitedResponse
  deriving DecidableEq, Repr

/-- The `match response { UnsolicitedResponse::Exists(_) => .. }` test of
the drain loop (src/imap/idle.rs, lines 38-46). -/
def UnsolicitedResponse.isExists : UnsolicitedResponse → Bool
  | .Exists _ => true
  | .Other => false

structure Imap where
  can_idle : Bool
  session : Option (List UnsolicitedResponse)
  deriving DecidableEq, Repr

inductive IdleErr where
  | noIdleCapability : IdleErr
  | setupFailed : IdleErr
  | selectFailed : IdleErr
  | initFailed : IdleErr
  | doneTimeout : IdleErr
  deriving DecidableEq, Repr

inductive WaitOutcome where
  | newData : WaitOutcome
  | timeout : WaitOutcome
  | manualInterrupt : WaitOutcome
  | interrupt : InterruptInfo → WaitOutcome
  deriving DecidableEq, Repr

structure IdleEnv where
  setupOk : Bool
  selectOk : Bool
  initOk : Bool
  waitOutcome : WaitOutcome
  doneOk : Bool
  deriving DecidableEq, Repr

structure IdleOutcome where
  result : Except IdleErr InterruptInfo
  issuedIdle : Bool
  deriving Repr

/-- `Imap::idle` (src/imap/idle.rs, lines 18-105): bail without IDLE
capability; set up and select the watch folder; drain queued unsolicited
responses and return the default `InterruptInfo` at once when an EXISTS
was queued; otherwise issue IDLE, race the wait against the interrupt
channel, and terminate the IDLE within the 15-second bound. -/
def Imap.idle (st : Imap) (env : IdleEnv) : IdleOutcome :=
  if st.can_idle = false then ⟨.error .noIdleCapability, false⟩
  else if env.setupOk = false then ⟨.error .setupFailed, false⟩
  else if env.selectOk = false then ⟨.error .selectFailed, false⟩
  else
    match st.session with
    | none => ⟨.ok default, false⟩
    | some queued =>
        if queued.any UnsolicitedResponse.isExists then ⟨.ok default, false⟩
        else if env.initOk = false then ⟨.error .initFailed, true⟩
        else
          let info : InterruptInfo :=
            match env.waitOutcome with
            | .interrupt i => i
            | _ => default
          if env.doneOk = false then ⟨.error .doneTimeout, true⟩
          else ⟨.ok info, true⟩

/-- C9: `idle` fails when the session lacks the IDLE capability, and
when, after folder selection, the drained unsolicited responses contain
an `EXISTS`, it returns the default `InterruptInfo` immediately without
issuing the IDLE command. -/
theorem idle_spec (st : Imap) (env : IdleEnv) :
    (st.can_idle = false →
      (st.idle env).result = .error .noIdleCapability ∧
        (st.idle env).issuedIdle = false) ∧
    (st.can_idle = true → env.setupOk = true → env.selectOk = true →
      ∀ queued, st.session = some queued →
        queued.any UnsolicitedResponse.isExists = true →
          st.idle env = ⟨.ok default, false⟩) := by
  constructor
  · intro hno
    unfold Imap.idle
    rw [if_pos hno]
    exact ⟨rfl, rfl⟩
  · intro hcan hsetup hselect queued hsession hexists
    unfold Imap.idle
    rw [hcan, hsetup, hselect, hsession]
    simp only [Bool.true_eq_false, if_false]
    rw [if_pos hexists]

/-- C9 witness: a capability-less session fails, and a session with a
queued EXISTS returns the default envelope without entering IDLE. -/
theorem idle_spec_witness :
    ((Imap.idle ⟨false, some []⟩ ⟨true, true, true, .newData, true⟩).result
        = .error .noIdleCapability ∧
      (Imap.idle ⟨false, some []⟩ ⟨true, true, true, .newData, true⟩).issuedIdle
        = false) ∧
    Imap.idle ⟨true, some [.Other, .Exists 4]⟩ ⟨true, true, true, .newData, true⟩
      = ⟨.ok default, false⟩ :=
  ⟨(idle_spec ⟨false, some []⟩ ⟨true, true, true, .newData, true⟩).1 rfl,
    (idle_spec ⟨true, some [.Other, .Exists 4]⟩ ⟨true, true, true, .newData, true⟩).2
      rfl rfl rfl [.Other, .Exists 4] rfl rfl⟩

end JuttmyCore
